import Mathlib

/-!
Shallow embedding of the job-board backend (Express + Mongoose routes and
schemas) for verification of the frozen claims.

Correspondence to the source:
- Status, AppDoc          : the Application schema (models/Application.js).
- JobDoc                  : the Job schema (models/Job.js).
- DB                      : the document store (one collection of Jobs, one of
                            Applications); document ids are modelled as Nat.
- applyToJob              : POST /api/applications handler.
- updateApplicationStatus : PUT /api/applications/:id/status handler.
- withdrawApplication     : DELETE /api/applications/:id handler.
- getApplication          : GET /api/applications/:id handler.
- getJob                  : GET /api/jobs/:id handler.
- listJobs                : GET /api/jobs handler (salary-filter fragment).
- createJob               : POST /api/jobs handler plus Job.save middleware.
- updateJob               : PUT /api/jobs/:id handler.
- deleteJob               : DELETE /api/jobs/:id handler.

Times (Date values) are modelled as Nat timestamps.  The authenticate /
optionalAuth middleware is the external authentication collaborator of the
spec: handlers receive the verified requester id and role as parameters.
Route-level express-validator chains are modelled where a claim depends on
them; JS truthiness of numbers (0 and undefined are falsy) is modelled
explicitly where the source relies on it.
-/

namespace JobBoard

/-- Application status enum, from the Application schema. -/
inductive Status
  | pending
  | reviewed
  | shortlisted
  | interviewed
  | hired
  | rejected
deriving DecidableEq, Repr

/-- User role, from the User schema userType enum.  Handlers test
the requester role against admin; job creation is gated on
recruiter-or-admin. -/
inductive Role
  | jobSeeker
  | recruiter
  | admin
deriving DecidableEq, Repr

/-- Error kinds of the spec (section 7): each distinct error branch of a
handler is tagged with its kind.  validationError = HTTP 400 validation list,
notFound = 404, conflict = 400 duplicate application, forbidden = 403,
invalidOperation = 400 domain-rule violation, unavailable = 500. -/
inductive ErrKind
  | validationError
  | notFound
  | conflict
  | forbidden
  | invalidOperation
  | unavailable
deriving DecidableEq, Repr

/-- Result of one handler invocation: success payload or a structured
failure with a kind and the handler message. -/
inductive OpResult (α : Type)
  | ok (value : α)
  | err (kind : ErrKind) (msg : String)
deriving DecidableEq, Repr

/-- A stored Job document (models/Job.js).  salaryMin and salaryMax are
present-or-absent numbers; counters are Int because the store applies
unbounded increments and decrements. -/
structure JobDoc where
  id : Nat
  title : String
  company : String
  description : String
  requirements : Option String
  location : String
  jobType : String
  category : String
  salaryMin : Option Int
  salaryMax : Option Int
  salaryCurrency : String
  salaryPeriod : String
  tags : List String
  logo : String
  experienceLevel : String
  benefits : List String
  applicationDeadline : Option Nat
  isActive : Bool
  featured : Bool
  applicationsCount : Int
  viewsCount : Int
  createdBy : Nat
deriving DecidableEq, Repr

/-- A stored Application document (models/Application.js). -/
structure AppDoc where
  id : Nat
  job : Nat
  applicant : Nat
  resumeLink : String
  coverLetter : Option String
  status : Status
  notes : Option String
  reviewedAt : Option Nat
  reviewedBy : Option Nat
deriving DecidableEq, Repr

/-- The document store: Jobs and Applications collections, plus fresh-id
counters standing for ObjectId generation. -/
structure DB where
  jobs : List JobDoc
  apps : List AppDoc
  nextJobId : Nat
  nextAppId : Nat
deriving DecidableEq, Repr

/-- Job.findById. -/
def findJob (db : DB) (id : Nat) : Option JobDoc :=
  db.jobs.find? (fun j => j.id == id)

/-- Application.findById. -/
def findApp (db : DB) (id : Nat) : Option AppDoc :=
  db.apps.find? (fun a => a.id == id)

/-- Application.findOne with filter on job and applicant: the duplicate
check of the apply handler. -/
def findAppByJobApplicant (db : DB) (jobId userId : Nat) : Option AppDoc :=
  db.apps.find? (fun a => a.job == jobId && a.applicant == userId)

/-- JS truthiness of a Date-valued field: a Date object is truthy whenever
present.  Used for job.applicationDeadline. -/
def dateTruthy (d : Option Nat) : Bool :=
  d.isSome

/-- The Application document built by the apply handler: status defaults
to pending, review fields unset; the pre-save hook does not fire on a new
pending document. -/
def mkApplication (db : DB) (userId jobId : Nat) (resumeLink : String)
    (coverLetter : Option String) : AppDoc :=
  { id := db.nextAppId
    job := jobId
    applicant := userId
    resumeLink := resumeLink
    coverLetter := coverLetter
    status := .pending
    notes := none
    reviewedAt := none
    reviewedBy := none }

/-- The store mutation of a successful apply: insert the Application and
increment the applicationsCount of the referenced job. -/
def insertApplication (db : DB) (userId jobId : Nat) (resumeLink : String)
    (coverLetter : Option String) : DB :=
  { db with
    apps := db.apps ++ [mkApplication db userId jobId resumeLink coverLetter]
    jobs := db.jobs.map (fun j =>
      if j.id == jobId then
        { j with applicationsCount := j.applicationsCount + 1 }
      else j)
    nextAppId := db.nextAppId + 1 }

/-- POST /api/applications (applicationRoutes.js).  Inputs have passed the
express-validator chain (jobId well formed, resumeLink a URL, coverLetter
length bounded); now is the current timestamp.  Follows the handler branch
order exactly: job lookup, isActive, deadline, duplicate, own-job, then
insert plus counter increment. -/
def applyToJob (db : DB) (userId jobId : Nat) (resumeLink : String)
    (coverLetter : Option String) (now : Nat) : OpResult AppDoc × DB :=
  match findJob db jobId with
  | none => (.err .notFound "Job not found", db)
  | some job =>
    if !job.isActive then
      (.err .invalidOperation "This job is no longer accepting applications", db)
    else if dateTruthy job.applicationDeadline &&
        decide (now > job.applicationDeadline.getD 0) then
      (.err .invalidOperation "Application deadline has passed", db)
    else if (findAppByJobApplicant db jobId userId).isSome then
      (.err .conflict "You have already applied to this job", db)
    else if job.createdBy == userId then
      (.err .invalidOperation "You cannot apply to your own job posting", db)
    else
      (.ok (mkApplication db userId jobId resumeLink coverLetter),
        insertApplication db userId jobId resumeLink coverLetter)

/-- JS truthiness of the optional notes string: undefined and the empty
string are falsy, so the handler line `if (notes) application.notes = notes`
keeps the old notes for both. -/
def notesTruthy (notes : Option String) : Bool :=
  match notes with
  | none => false
  | some s => s ≠ ""

/-- The document mutation performed by the status-update handler before
save: assign status, notes when truthy, reviewedBy, and reviewedAt = now
unconditionally; then the schema pre-save hook, whose guard (status was
modified away from pending and reviewedAt still unset) can never hold
after the unconditional assignment. -/
def reviewApp (app : AppDoc) (newStatus : Status) (notes : Option String)
    (userId now : Nat) : AppDoc :=
  let app1 : AppDoc :=
    { app with
      status := newStatus
      notes := if notesTruthy notes then notes else app.notes
      reviewedBy := some userId
      reviewedAt := some now }
  -- pre-save hook: isModified("status") holds (the handler assigned the
  -- path), so the guard reduces to status not pending and reviewedAt unset
  if app1.status != .pending && app1.reviewedAt == none then
    { app1 with reviewedAt := some now }
  else app1

/-- PUT /api/applications/:id/status (applicationRoutes.js).  The status
value has passed the enum validator.  The handler populates the job to read
createdBy: a missing job makes that property access throw, which the catch
block turns into the generic 500.  After authorization it assigns status,
notes (if truthy), reviewedBy and, unconditionally, reviewedAt = now, then
saves.  The save runs the schema pre-save hook, which only assigns
reviewedAt when the status was modified away from pending and reviewedAt is
still unset (a Date object is truthy in JS, so the hook never fires after
the handler assignment). -/
def updateApplicationStatus (db : DB) (userId : Nat) (role : Role)
    (appId : Nat) (newStatus : Status) (notes : Option String) (now : Nat) :
    OpResult Unit × DB :=
  match findApp db appId with
  | none => (.err .notFound "Application not found", db)
  | some app =>
    match findJob db app.job with
    | none => (.err .unavailable "Server error updating application status", db)
    | some job =>
      if job.createdBy != userId && role != .admin then
        (.err .forbidden
          "Access denied. You can only update applications for your own jobs.", db)
      else
        let app2 := reviewApp app newStatus notes userId now
        let db' : DB :=
          { db with apps := db.apps.map (fun a => if a.id == appId then app2 else a) }
        (.ok (), db')

/-- DELETE /api/applications/:id (applicationRoutes.js): withdraw.
Branch order: lookup, applicant check, terminal-status check, then
findByIdAndDelete plus applicationsCount decrement on the referenced job. -/
def withdrawApplication (db : DB) (userId appId : Nat) : OpResult Unit × DB :=
  match findApp db appId with
  | none => (.err .notFound "Application not found", db)
  | some app =>
    if app.applicant != userId then
      (.err .forbidden
        "Access denied. You can only withdraw your own applications.", db)
    else if app.status == .hired || app.status == .rejected then
      (.err .invalidOperation
        "Cannot withdraw application that has already been processed", db)
    else
      let db' : DB :=
        { db with
          apps := db.apps.filter (fun a => a.id != appId)
          jobs := db.jobs.map (fun j =>
            if j.id == app.job then
              { j with applicationsCount := j.applicationsCount - 1 }
            else j) }
      (.ok (), db')

/-- GET /api/applications/:id (applicationRoutes.js).  Read-only.  The
populated job is needed for the createdBy authorization check; a missing
referenced job would make that access throw into the catch block (500). -/
def getApplication (db : DB) (userId : Nat) (role : Role) (appId : Nat) :
    OpResult AppDoc :=
  match findApp db appId with
  | none => .err .notFound "Application not found"
  | some app =>
    match findJob db app.job with
    | none => .err .unavailable "Server error fetching application"
    | some job =>
      if app.applicant == userId || job.createdBy == userId || role == .admin then
        .ok app
      else
        .err .forbidden
          "Access denied. You can only view your own applications or applications to your jobs."

/-- A route :id parameter: either a well-formed document id or a
syntactically invalid one, on which findById throws a CastError. -/
inductive RawId
  | valid (id : Nat)
  | invalid
deriving DecidableEq, Repr

/-- GET /api/jobs/:id (jobRoutes).  An invalid id makes findById throw a
CastError, which the catch block maps to the 400 Invalid-job-ID branch.
A found, active job then gets its viewsCount incremented by an awaited
findByIdAndUpdate before the response is sent; incFails models that store
call failing, which lands in the same catch block with a non-CastError
error and produces the generic 500.  The success payload is the job
snapshot read before the increment, annotated with the optional
requester's own application status. -/
def getJob (db : DB) (rawId : RawId) (userOpt : Option Nat) (incFails : Bool) :
    OpResult (JobDoc × Option Status) × DB :=
  match rawId with
  | .invalid => (.err .validationError "Invalid job ID format", db)
  | .valid id =>
    match findJob db id with
    | none => (.err .notFound "Job not found or inactive", db)
    | some job =>
      if !job.isActive then
        (.err .notFound "Job not found or inactive", db)
      else if incFails then
        (.err .unavailable "Server error fetching job", db)
      else
        let db' : DB :=
          { db with jobs := db.jobs.map (fun j =>
              if j.id == id then { j with viewsCount := j.viewsCount + 1 } else j) }
        let st : Option Status :=
          userOpt.bind (fun u => (findAppByJobApplicant db' id u).map (fun a => a.status))
        (.ok (job, st), db')

/-- DELETE /api/jobs/:id (jobRoutes): lookup, owner-or-admin check, then
Job.findByIdAndDelete together with Application.deleteMany on the job
reference (the cascade). -/
def deleteJob (db : DB) (userId : Nat) (role : Role) (jobId : Nat) :
    OpResult Unit × DB :=
  match findJob db jobId with
  | none => (.err .notFound "Job not found", db)
  | some job =>
    if job.createdBy != userId && role != .admin then
      (.err .forbidden "Access denied", db)
    else
      (.ok (),
        { db with
          jobs := db.jobs.filter (fun j => j.id != jobId)
          apps := db.apps.filter (fun a => a.job != jobId) })

/-- Executable model of the JS String trim: strip whitespace from both
ends.  Structural on the character list so that proofs can evaluate it. -/
def strTrim (s : String) : String :=
  String.mk (((s.data.dropWhile Char.isWhitespace).reverse.dropWhile
    Char.isWhitespace).reverse)

/-- Executable model of the JS toLowerCase, on the ASCII range the
sources use. -/
def strToLower (s : String) : String :=
  String.mk (s.data.map Char.toLower)

/-! ## Job listing: the salary-filter fragment of GET /api/jobs

The claims touch only the salary part of the query object the handler
builds, so the model carries the isActive base condition and the two
salary constraints; the other filters are absent in the scenario the
claims describe (no keyword, location, type, category, experienceLevel or
featured parameter supplied). -/

/-- The value the handler stores under the salary.min key of the query
object: either the empty object (built unconditionally when any salary
bound is present) or the object with a gte bound added to it. -/
inductive SalaryMinC
  | emptyEq
  | gte (n : Int)
deriving DecidableEq, Repr

/-- The salary fragment of the query object built by GET /api/jobs. -/
structure JobQuery where
  salaryMinC : Option SalaryMinC
  salaryMaxLte : Option Int
deriving DecidableEq, Repr

/-- Lines 91-95 of the jobs route: `if (minSalary || maxSalary)` first
assigns the empty object to the salary.min key, then adds gte only when
minSalary is present, and assigns a lte constraint to salary.max only when
maxSalary is present.  A supplied query parameter is a non-empty string,
hence truthy, so presence of the parameter is what the guards test. -/
def buildSalaryFilter (minSalary maxSalary : Option Int) : JobQuery :=
  if minSalary.isSome || maxSalary.isSome then
    { salaryMinC := some (match minSalary with
        | some n => .gte n
        | none => .emptyEq)
      salaryMaxLte := maxSalary }
  else
    { salaryMinC := none, salaryMaxLte := none }

/-- Store semantics of the salary.min constraint.  An empty document as a
query value is an equality match against the empty document: a field
holding a number never matches it, and neither does an absent field. -/
def matchesSalaryMin (c : SalaryMinC) (v : Option Int) : Bool :=
  match c, v with
  | .emptyEq, _ => false
  | .gte n, some x => n ≤ x
  | .gte _, none => false

/-- Store semantics of the salary.max lte constraint. -/
def matchesSalaryMax (lte : Option Int) (v : Option Int) : Bool :=
  match lte with
  | none => true
  | some b =>
    match v with
    | some x => x ≤ b
    | none => false

/-- Whether a stored job matches the query object: the base
isActive = true condition plus the salary constraints. -/
def jobMatches (q : JobQuery) (j : JobDoc) : Bool :=
  j.isActive &&
  (match q.salaryMinC with
    | none => true
    | some c => matchesSalaryMin c j.salaryMin) &&
  matchesSalaryMax q.salaryMaxLte j.salaryMax

/-- GET /api/jobs restricted to the salary filters: the store filters by
the query object, then pages with skip and limit.  The sort stage between
filtering and paging permutes the filtered sequence only and is omitted;
the theorems below depend only on the filtered set. -/
def listJobs (db : DB) (minSalary maxSalary : Option Int)
    (page limit : Nat) : List JobDoc :=
  let q := buildSalaryFilter minSalary maxSalary
  (((db.jobs.filter (jobMatches q)).drop ((page - 1) * limit)).take limit)

/-! ## Job creation and update -/

/-- Modelled from the spec: the isEmployerOrAdmin middleware predicate of
middleware/auth.js, which is not part of the provided sources.  Section 6
of the spec names it a boolean capability check and section 4.1 requires
the creator role to be recruiter or admin. -/
def isEmployerOrAdmin (role : Role) : Bool :=
  role == .recruiter || role == .admin

/-- The job type enum shared by the route validator and the schema. -/
def jobTypeEnum : List String :=
  ["full-time", "part-time", "contract", "internship", "remote"]

/-- The category enum shared by the route validator and the schema. -/
def categoryEnum : List String :=
  ["technology", "marketing", "design", "sales", "finance", "healthcare",
   "education", "engineering", "operations", "customer-service", "other"]

/-- The experience level enum. -/
def experienceLevelEnum : List String :=
  ["entry", "mid", "senior", "lead", "executive"]

/-- The salary period enum of the schema. -/
def salaryPeriodEnum : List String :=
  ["hourly", "monthly", "yearly"]

/-- The request body of POST /api/jobs after JSON parsing; the handler
spreads it into jobData wholesale.  Numeric salary fields have passed the
isNumeric validator, hence the Int type. -/
structure JobInput where
  title : String
  company : String
  description : String
  requirements : Option String := none
  location : String
  jobType : String
  category : String
  salaryMin : Option Int := none
  salaryMax : Option Int := none
  salaryCurrency : Option String := none
  salaryPeriod : Option String := none
  tags : Option (List String) := none
  logo : Option String := none
  experienceLevel : Option String := none
  benefits : Option (List String) := none
  applicationDeadline : Option Nat := none
deriving DecidableEq, Repr

/-- The express-validator chain of POST /api/jobs, applied after its trim
sanitizers: length windows on the four text fields and closed enums for
type, category and the optional experience level. -/
def validateJobInput (i : JobInput) : Bool :=
  3 ≤ i.title.length && i.title.length ≤ 100 &&
  2 ≤ i.company.length && i.company.length ≤ 100 &&
  50 ≤ i.description.length && i.description.length ≤ 5000 &&
  2 ≤ i.location.length && i.location.length ≤ 100 &&
  jobTypeEnum.contains i.jobType &&
  categoryEnum.contains i.category &&
  (match i.experienceLevel with
    | none => true
    | some e => experienceLevelEnum.contains e)

/-- Tag normalization of the routes: toLowerCase then trim on each tag,
then Set-based dedup keeping first occurrences. -/
def normalizeTags (ts : List String) : List String :=
  (ts.map (fun t => strTrim (strToLower t))).eraseDups

/-- JS truthiness of an optional numeric field: undefined and 0 are
falsy.  The pre-save salary hook guards with this truthiness. -/
def jsNumTruthy (n : Option Int) : Bool :=
  match n with
  | none => false
  | some v => v ≠ 0

/-- The schema validators that Job.save runs before the pre-save hooks:
maxlength caps, enum membership, and the nonnegativity bounds on both
salary figures. -/
def jobSchemaValid (j : JobDoc) : Bool :=
  j.title.length ≤ 100 &&
  j.company.length ≤ 100 &&
  j.description.length ≤ 5000 &&
  (match j.requirements with
    | none => true
    | some r => r.length ≤ 3000) &&
  jobTypeEnum.contains j.jobType &&
  categoryEnum.contains j.category &&
  experienceLevelEnum.contains j.experienceLevel &&
  salaryPeriodEnum.contains j.salaryPeriod &&
  (match j.salaryMin with
    | none => true
    | some v => 0 ≤ v) &&
  (match j.salaryMax with
    | none => true
    | some v => 0 ≤ v)

/-- The pre-save salary-range hook of the Job schema: it raises an error
only when BOTH figures are truthy (so a value of 0 or an absent value
skips the check) and min exceeds max. -/
def salaryHookRejects (mn mx : Option Int) : Bool :=
  jsNumTruthy mn && jsNumTruthy mx && decide (mn.getD 0 > mx.getD 0)

/-- POST /api/jobs: the isEmployerOrAdmin gate, the validator chain (its
trim sanitizers mutate the body first), tag normalization, then
Job.save.  The save runs schema validation, then the pre-save range hook;
an error from either lands in the route catch block, which answers with
the generic 500 for every save failure.  On success the document is
stored with the schema defaults filled in. -/
def createJob (db : DB) (userId : Nat) (role : Role) (input : JobInput) :
    OpResult JobDoc × DB :=
  if !isEmployerOrAdmin role then
    (.err .forbidden "Access denied", db)
  else
    let i : JobInput :=
      { input with
        title := strTrim input.title
        company := strTrim input.company
        description := strTrim input.description
        location := strTrim input.location }
    if !validateJobInput i then
      (.err .validationError "Validation failed", db)
    else
      let doc : JobDoc :=
        { id := db.nextJobId
          title := i.title
          company := i.company
          description := i.description
          requirements := i.requirements
          location := i.location
          jobType := i.jobType
          category := i.category
          salaryMin := i.salaryMin
          salaryMax := i.salaryMax
          salaryCurrency := i.salaryCurrency.getD "USD"
          salaryPeriod := i.salaryPeriod.getD "yearly"
          tags := (i.tags.map normalizeTags).getD []
          logo := i.logo.getD ""
          experienceLevel := i.experienceLevel.getD "mid"
          benefits := i.benefits.getD []
          applicationDeadline := i.applicationDeadline
          isActive := true
          featured := false
          applicationsCount := 0
          viewsCount := 0
          createdBy := userId }
      if !jobSchemaValid doc then
        (.err .unavailable "Server error creating job", db)
      else if salaryHookRejects doc.salaryMin doc.salaryMax then
        (.err .unavailable "Server error creating job", db)
      else
        (.ok doc, { db with jobs := db.jobs ++ [doc], nextJobId := db.nextJobId + 1 })

/-- One value of the update request body, by shape. -/
inductive FieldVal
  | vStr (s : String)
  | vNum (n : Int)
  | vBool (b : Bool)
  | vId (n : Nat)
  | vSalary (mn mx : Option Int) (currency period : Option String)
  | vTags (ts : List String)
  | vStrList (ss : List String)
  | vDate (d : Option Nat)
deriving DecidableEq, Repr

/-- The fixed allow-list of PUT /api/jobs/:id. -/
def allowedUpdates : List String :=
  ["title", "company", "description", "requirements", "location", "type",
   "category", "salary", "tags", "logo", "experienceLevel", "benefits",
   "applicationDeadline", "isActive", "featured"]

/-- The key filter of the update handler: keep exactly the body entries
whose key is in the allow-list. -/
def filterAllowed (body : List (String × FieldVal)) :
    List (String × FieldVal) :=
  body.filter (fun kv => allowedUpdates.contains kv.1)

/-- The tags clause of the update handler: when the updates object holds a
tags array, replace it with the normalized dedup. -/
def normalizeTagsEntry (kv : String × FieldVal) : String × FieldVal :=
  if kv.1 == "tags" then
    match kv.2 with
    | .vTags ts => (kv.1, .vTags (normalizeTags ts))
    | _ => kv
  else kv

/-- One Set-stage assignment of the store update, per schema path.  The
schema setters (trim on the text paths, lowercase-trim on tags, subdoc
defaults on salary) apply during the cast.  A key outside the schema is
ignored (strict mode); a value of the wrong shape for a schema path would
fail the cast and leave the document unchanged, modelled as a no-op on
that path. -/
def applySet (j : JobDoc) (key : String) (v : FieldVal) : JobDoc :=
  if key == "title" then
    match v with | .vStr s => { j with title := strTrim s } | _ => j
  else if key == "company" then
    match v with | .vStr s => { j with company := strTrim s } | _ => j
  else if key == "description" then
    match v with | .vStr s => { j with description := s } | _ => j
  else if key == "requirements" then
    match v with | .vStr s => { j with requirements := some s } | _ => j
  else if key == "location" then
    match v with | .vStr s => { j with location := strTrim s } | _ => j
  else if key == "type" then
    match v with | .vStr s => { j with jobType := s } | _ => j
  else if key == "category" then
    match v with | .vStr s => { j with category := s } | _ => j
  else if key == "salary" then
    match v with
    | .vSalary mn mx c p =>
      { j with salaryMin := mn, salaryMax := mx,
               salaryCurrency := c.getD "USD", salaryPeriod := p.getD "yearly" }
    | _ => j
  else if key == "tags" then
    match v with
    | .vTags ts => { j with tags := ts.map (fun t => strTrim (strToLower t)) }
    | _ => j
  else if key == "logo" then
    match v with | .vStr s => { j with logo := s } | _ => j
  else if key == "experienceLevel" then
    match v with | .vStr s => { j with experienceLevel := s } | _ => j
  else if key == "benefits" then
    match v with | .vStrList ss => { j with benefits := ss } | _ => j
  else if key == "applicationDeadline" then
    match v with | .vDate d => { j with applicationDeadline := d } | _ => j
  else if key == "isActive" then
    match v with | .vBool b => { j with isActive := b } | _ => j
  else if key == "featured" then
    match v with | .vBool b => { j with featured := b } | _ => j
  else if key == "createdBy" then
    match v with | .vId n => { j with createdBy := n } | _ => j
  else if key == "applicationsCount" then
    match v with | .vNum n => { j with applicationsCount := n } | _ => j
  else if key == "viewsCount" then
    match v with | .vNum n => { j with viewsCount := n } | _ => j
  else j

/-- The Set stage of findByIdAndUpdate over the filtered updates. -/
def applyUpdates (j : JobDoc) (ups : List (String × FieldVal)) : JobDoc :=
  ups.foldl (fun acc kv => applySet acc kv.1 kv.2) j

/-- runValidators on one Set path: the schema validators that apply to the
updated path.  Paths without validators always pass. -/
def updateEntryValid (kv : String × FieldVal) : Bool :=
  if kv.1 == "title" then
    match kv.2 with | .vStr s => (strTrim s).length ≤ 100 | _ => true
  else if kv.1 == "company" then
    match kv.2 with | .vStr s => (strTrim s).length ≤ 100 | _ => true
  else if kv.1 == "description" then
    match kv.2 with | .vStr s => s.length ≤ 5000 | _ => true
  else if kv.1 == "requirements" then
    match kv.2 with | .vStr s => s.length ≤ 3000 | _ => true
  else if kv.1 == "type" then
    match kv.2 with | .vStr s => jobTypeEnum.contains s | _ => true
  else if kv.1 == "category" then
    match kv.2 with | .vStr s => categoryEnum.contains s | _ => true
  else if kv.1 == "experienceLevel" then
    match kv.2 with | .vStr s => experienceLevelEnum.contains s | _ => true
  else if kv.1 == "salary" then
    match kv.2 with
    | .vSalary mn mx _ p =>
      (match mn with | none => true | some v => decide (0 ≤ v)) &&
      (match mx with | none => true | some v => decide (0 ≤ v)) &&
      salaryPeriodEnum.contains (p.getD "yearly")
    | _ => true
  else true

/-- runValidators over the whole update document.  The pre-save
salary-range hook does NOT run here: findByIdAndUpdate triggers update
validators only, not document save middleware. -/
def validateUpdates (ups : List (String × FieldVal)) : Bool :=
  ups.all updateEntryValid

/-- PUT /api/jobs/:id: lookup, owner-or-admin check, allow-list filter,
tag normalization, then findByIdAndUpdate with Set and runValidators.  A
validator rejection throws into the catch block, answered with the
generic 500 and leaving the store unchanged. -/
def updateJob (db : DB) (userId : Nat) (role : Role) (jobId : Nat)
    (body : List (String × FieldVal)) : OpResult Unit × DB :=
  match findJob db jobId with
  | none => (.err .notFound "Job not found", db)
  | some job =>
    if job.createdBy != userId && role != .admin then
      (.err .forbidden "Access denied", db)
    else
      let updates := (filterAllowed body).map normalizeTagsEntry
      if !validateUpdates updates then
        (.err .unavailable "Server error updating job", db)
      else
        (.ok (),
          { db with jobs := db.jobs.map (fun j =>
              if j.id == jobId then applyUpdates j updates else j) })

/-- Whether a handler result is a success. -/
def OpResult.isOk {α : Type} : OpResult α → Bool
  | .ok _ => true
  | .err _ _ => false

/-- Uniqueness invariant of the Application store: no two stored
Applications share the (job, applicant) pair. -/
def NoDupPair (apps : List AppDoc) : Prop :=
  apps.Pairwise (fun x y => ¬(x.job = y.job ∧ x.applicant = y.applicant))

/-- Well-formedness of the Application collection: document ids are
distinct, as the store guarantees for primary keys. -/
def DistinctAppIds (db : DB) : Prop :=
  db.apps.Pairwise (fun x y => x.id ≠ y.id)

/-! ## Concrete fixtures used by witnesses and counterexamples -/

/-- A stored active job: id 1, owned by user 10, no deadline. -/
def jobFix : JobDoc :=
  { id := 1
    title := "Backend Engineer"
    company := "Acme"
    description := "Build and maintain the REST backend of the Acme job board platform."
    requirements := none
    location := "Remote"
    jobType := "full-time"
    category := "technology"
    salaryMin := some 3000
    salaryMax := some 5000
    salaryCurrency := "USD"
    salaryPeriod := "yearly"
    tags := []
    logo := ""
    experienceLevel := "mid"
    benefits := []
    applicationDeadline := none
    isActive := true
    featured := false
    applicationsCount := 0
    viewsCount := 0
    createdBy := 10 }

/-- A store holding only jobFix. -/
def dbFix : DB :=
  { jobs := [jobFix], apps := [], nextJobId := 2, nextAppId := 1 }

/-- A pending application by user 20 to job 1. -/
def appFix : AppDoc :=
  { id := 1
    job := 1
    applicant := 20
    resumeLink := "https://cv.example/resume.pdf"
    coverLetter := none
    status := .pending
    notes := none
    reviewedAt := none
    reviewedBy := none }

/-- A store holding jobFix and the pending application appFix. -/
def dbFix2 : DB :=
  { jobs := [jobFix], apps := [appFix], nextJobId := 2, nextAppId := 2 }

/-- An application by the job owner (user 10) to the owned job 1: a state
the API itself never produces, used to test the own-job branch order. -/
def appOwnFix : AppDoc :=
  { id := 7
    job := 1
    applicant := 10
    resumeLink := "https://cv.example/owner.pdf"
    coverLetter := none
    status := .pending
    notes := none
    reviewedAt := none
    reviewedBy := none }

/-- A store where the owner of job 1 already holds an application to it. -/
def dbOwnFix : DB :=
  { jobs := [jobFix], apps := [appOwnFix], nextJobId := 2, nextAppId := 8 }

/-- The state after user 20 applies to job 1 in dbFix. -/
def dbFix1 : DB :=
  (applyToJob dbFix 20 1 "https://cv.example/resume.pdf" none 50).2

/-- The application document created by that apply. -/
def appWit : AppDoc :=
  { id := 1
    job := 1
    applicant := 20
    resumeLink := "https://cv.example/resume.pdf"
    coverLetter := none
    status := .pending
    notes := none
    reviewedAt := none
    reviewedBy := none }

/-- A create request whose salary figures are min 5000 and max 0; every
other field is valid. -/
def zeroMaxInput : JobInput :=
  { title := "Backend Engineer"
    company := "Acme"
    description := "Build and maintain the REST backend of the Acme job board platform."
    location := "Remote"
    jobType := "full-time"
    category := "technology"
    salaryMin := some 5000
    salaryMax := some 0 }

/-- An empty store. -/
def dbEmpty : DB :=
  { jobs := [], apps := [], nextJobId := 1, nextAppId := 1 }

/-! ## Helper lemmas -/

/-- find? commutes with a map that does not change the predicate value. -/
theorem find?_map_pres {α : Type} (p : α → Bool) (g : α → α)
    (hg : ∀ a, p (g a) = p a) (l : List α) :
    (l.map g).find? p = (l.find? p).map g := by
  induction l with
  | nil => rfl
  | cons a t ih =>
    simp only [List.map_cons, List.find?_cons, hg a]
    cases p a <;> simp [ih]

/-- A pointwise relation between a mapped list and the original. -/
theorem forall₂_map_self {α : Type} (R : α → α → Prop) (g : α → α)
    (h : ∀ a, R (g a) a) (l : List α) :
    List.Forall₂ R (l.map g) l := by
  induction l with
  | nil => exact List.Forall₂.nil
  | cons a t ih => exact List.Forall₂.cons (h a) ih

/-! ## Settled claims -/

/-- Claim C10 (confirmed): a Get on a syntactically invalid job id answers
with the structured 400 Invalid-job-ID failure (the CastError branch of
the catch block), leaves the store untouched, and the failure kind is
validationError, not notFound. -/
theorem getJob_invalid_id_gives_validation_error
    (db : DB) (userOpt : Option Nat) (incFails : Bool) :
    getJob db .invalid userOpt incFails =
      (.err .validationError "Invalid job ID format", db) ∧
    ErrKind.validationError ≠ ErrKind.notFound := by
  exact ⟨rfl, by decide⟩

/-- Claim C9 (confirmed): a List call with maxSalary but no minSalary
builds the query with the empty-object constraint on salary.min, and the
returned page is empty for every store, page and limit, because no stored
salary.min value (a number or an absent field) matches an empty-document
equality. -/
theorem maxSalary_only_filter_matches_nothing
    (db : DB) (m : Int) (page limit : Nat) :
    (buildSalaryFilter none (some m)).salaryMinC = some .emptyEq ∧
    listJobs db none (some m) page limit = [] := by
  refine ⟨rfl, ?_⟩
  unfold listJobs
  have h : db.jobs.filter (jobMatches (buildSalaryFilter none (some m))) = [] := by
    rw [List.filter_eq_nil_iff]
    intro j _
    simp [buildSalaryFilter, jobMatches, matchesSalaryMin]
  simp [h]

/-- Claim C3 (code_bug): evaluation at the failing input.  Creating a job
with salary.min = 5000 and salary.max = 0 succeeds and stores a job whose
salary.min exceeds its salary.max: the pre-save range hook guards on JS
truthiness, so the 0 maximum skips the comparison.  The claimed rejection
does happen for min = 5000, max = 3000, but as the generic 500 of the
route catch block, and the stored-invariant half of the claim fails. -/
theorem create_zero_max_persists_min_gt_max :
    (createJob dbEmpty 10 .recruiter zeroMaxInput).1.isOk = true ∧
    ((createJob dbEmpty 10 .recruiter zeroMaxInput).2.jobs.map
        (fun j => (j.salaryMin, j.salaryMax))) = [(some 5000, some 0)] ∧
    ((createJob dbEmpty 10 .recruiter zeroMaxInput).2.jobs.all
        (fun j => j.salaryMin.getD 0 ≤ j.salaryMax.getD 0)) = false ∧
    createJob dbEmpty 10 .recruiter { zeroMaxInput with salaryMax := some 3000 } =
      (.err .unavailable "Server error creating job", dbEmpty) := by
  exact ⟨rfl, rfl, rfl, rfl⟩

/-- Claim C2 (corrected), counterexample: on the pending application of
dbFix2, UpdateStatus to reviewed at time 100 sets reviewedAt = 100, and a
second UpdateStatus to shortlisted at time 200 overwrites it with 200,
while the claim requires it to stay 100. -/
theorem updateStatus_second_call_overwrites_reviewedAt :
    ((findApp (updateApplicationStatus dbFix2 10 .recruiter 1
          .reviewed none 100).2 1).map (fun a => a.reviewedAt),
     (findApp (updateApplicationStatus
          (updateApplicationStatus dbFix2 10 .recruiter 1 .reviewed none 100).2
          10 .recruiter 1 .shortlisted none 200).2 1).map (fun a => a.reviewedAt))
      = (some (some 100), some (some 200)) ∧
    (some (some 200) : Option (Option Nat)) ≠ some (some 100) := by
  exact ⟨rfl, by decide⟩

/-- Claim C2 (corrected), amended: every successful UpdateStatus call sets
the stored reviewedAt to the time of THAT call (the handler assigns it
unconditionally and the set-once pre-save hook never fires afterwards), so
a later call overwrites the value of an earlier one; status and reviewedBy
are likewise set to the call arguments. -/
theorem updateStatus_sets_reviewedAt_to_call_time (db : DB) (u : Nat)
    (role : Role) (appId : Nat) (st : Status) (notes : Option String)
    (now : Nat) (db' : DB)
    (h : updateApplicationStatus db u role appId st notes now = (.ok (), db')) :
    ∃ a', findApp db' appId = some a' ∧ a'.reviewedAt = some now ∧
      a'.status = st ∧ a'.reviewedBy = some u := by
  unfold updateApplicationStatus at h
  split at h
  · simp at h
  · rename_i app hfa
    split at h
    · simp at h
    · rename_i job hfj
      split at h
      · simp at h
      · simp only [Prod.mk.injEq, true_and] at h
        subst h
        have hp : (app.id == appId) = true :=
          @List.find?_some AppDoc (fun x => x.id == appId) app db.apps
            (show List.find? (fun x => x.id == appId) db.apps = some app from hfa)
        have hpp : app.id = appId := by simpa using hp
        refine ⟨reviewApp app st notes u now, ?_, ?_, ?_, ?_⟩
        · unfold findApp
          rw [find?_map_pres (fun a => a.id == appId)
            (fun a => if a.id == appId then reviewApp app st notes u now else a)
            ?_ db.apps]
          · rw [show List.find? (fun a => a.id == appId) db.apps = some app from hfa]
            simp [hpp]
          · intro a
            by_cases hx : (a.id == appId) = true
            · simp [hx, reviewApp, hpp]
            · simp [hx]
        · simp [reviewApp]
        · simp [reviewApp]
        · simp [reviewApp]

/-- Claim C2 witness for the amended theorem: concrete run on dbFix2. -/
theorem updateStatus_sets_reviewedAt_to_call_time_witness :
    ∃ a', findApp (updateApplicationStatus dbFix2 10 .recruiter 1
        .reviewed none 100).2 1 = some a' ∧
      a'.reviewedAt = some 100 ∧ a'.status = .reviewed ∧ a'.reviewedBy = some 10 :=
  updateStatus_sets_reviewedAt_to_call_time dbFix2 10 .recruiter 1
    .reviewed none 100
    (updateApplicationStatus dbFix2 10 .recruiter 1 .reviewed none 100).2 rfl

/-- Claim C6 (corrected), counterexample: on the active job 1 of dbFix, a
Get whose viewsCount increment fails answers with the generic 500 server
failure instead of still returning the job, because the handler awaits the
increment before responding. -/
theorem getJob_fails_when_increment_fails :
    getJob dbFix (.valid 1) none true =
      (.err .unavailable "Server error fetching job", dbFix) ∧
    (findJob dbFix 1).map (fun j => j.isActive) = some true := by
  exact ⟨rfl, rfl⟩

/-- Claim C6 (corrected), amended: for an existing active job, a Get whose
increment succeeds returns the job and bumps the stored viewsCount by
exactly 1, while a Get whose increment fails aborts with the generic 500
and leaves the store unchanged. -/
theorem getJob_increments_views_or_aborts (db : DB) (id : Nat)
    (u : Option Nat) (job : JobDoc)
    (hfind : findJob db id = some job) (hact : job.isActive = true) :
    (∃ st, (getJob db (.valid id) u false).1 = .ok (job, st)) ∧
    (∃ j', findJob (getJob db (.valid id) u false).2 id = some j' ∧
      j'.viewsCount = job.viewsCount + 1) ∧
    getJob db (.valid id) u true =
      (.err .unavailable "Server error fetching job", db) := by
  have hp : (job.id == id) = true :=
    @List.find?_some JobDoc (fun x => x.id == id) job db.jobs
      (show List.find? (fun x => x.id == id) db.jobs = some job from hfind)
  have hpp : job.id = id := by simpa using hp
  have hmap : findJob { db with jobs := db.jobs.map (fun j =>
        if j.id == id then { j with viewsCount := j.viewsCount + 1 } else j) } id
      = some { job with viewsCount := job.viewsCount + 1 } := by
    unfold findJob
    rw [find?_map_pres (fun j => j.id == id)
      (fun j => if j.id == id then { j with viewsCount := j.viewsCount + 1 } else j)
      ?_ db.jobs]
    · rw [show List.find? (fun j => j.id == id) db.jobs = some job from hfind]
      simp [hpp]
    · intro a
      by_cases hx : (a.id == id) = true
      · simp [hx]
      · simp [hx]
  refine ⟨?_, ?_, ?_⟩
  · simp only [getJob]
    rw [hfind]
    simp [hact]
  · simp only [getJob]
    rw [hfind]
    simp only [hact, Bool.not_true, Bool.false_eq_true, if_false]
    exact ⟨_, hmap, rfl⟩
  · simp only [getJob]
    rw [hfind]
    simp [hact]

/-- Claim C6 witness for the amended theorem: concrete run on dbFix. -/
theorem getJob_increments_views_or_aborts_witness :
    (∃ st, (getJob dbFix (.valid 1) none false).1 = .ok (jobFix, st)) ∧
    (∃ j', findJob (getJob dbFix (.valid 1) none false).2 1 = some j' ∧
      j'.viewsCount = jobFix.viewsCount + 1) ∧
    getJob dbFix (.valid 1) none true =
      (.err .unavailable "Server error fetching job", dbFix) :=
  getJob_increments_views_or_aborts dbFix 1 none jobFix rfl rfl

/-- Claim C4 (corrected), counterexample: in a store where the owner of
job 1 (user 10) already holds an application to it, the owner applying
again fails with the Conflict duplicate error, not InvalidOperation,
because the duplicate check precedes the own-job check. -/
theorem apply_to_own_job_conflict_counterexample :
    (applyToJob dbOwnFix 10 1 "https://cv.example/owner.pdf" none 50).1 =
      .err .conflict "You have already applied to this job" ∧
    ErrKind.conflict ≠ ErrKind.invalidOperation := by
  exact ⟨rfl, by decide⟩

/-- Claim C4 (corrected), amended: Apply by the owner of an existing job
always fails and leaves the store unchanged; the failure kind is
InvalidOperation whenever no application by the owner exists for the job
(inactive job, passed deadline, or the own-job rule), and is Conflict in
the API-unreachable state where such an application already exists. -/
theorem apply_to_own_job_always_fails (db : DB) (O jobId : Nat) (r : String)
    (c : Option String) (now : Nat) (job : JobDoc)
    (hfind : findJob db jobId = some job) (hown : job.createdBy = O) :
    (applyToJob db O jobId r c now).2 = db ∧
    ∃ k m, (applyToJob db O jobId r c now).1 = .err k m ∧
      (k = .conflict ∨ k = .invalidOperation) ∧
      (findAppByJobApplicant db jobId O = none → k = .invalidOperation) := by
  unfold applyToJob
  rw [hfind]
  dsimp only
  split_ifs with h1 h2 h3 h4
  · exact ⟨rfl, .invalidOperation, _, rfl, Or.inr rfl, fun _ => rfl⟩
  · exact ⟨rfl, .invalidOperation, _, rfl, Or.inr rfl, fun _ => rfl⟩
  · refine ⟨rfl, .conflict, _, rfl, Or.inl rfl, fun hn => ?_⟩
    rw [hn] at h3
    simp at h3
  · exact ⟨rfl, .invalidOperation, _, rfl, Or.inr rfl, fun _ => rfl⟩
  · exact absurd (by simp [hown]) h4

/-- Claim C4 witness for the amended theorem: concrete run of the owner
applying to their own active job in dbFix. -/
theorem apply_to_own_job_always_fails_witness :
    (applyToJob dbFix 10 1 "https://cv.example/owner.pdf" none 50).2 = dbFix ∧
    ∃ k m, (applyToJob dbFix 10 1 "https://cv.example/owner.pdf" none 50).1 =
        .err k m ∧
      (k = .conflict ∨ k = .invalidOperation) ∧
      (findAppByJobApplicant dbFix 1 10 = none → k = .invalidOperation) :=
  apply_to_own_job_always_fails dbFix 10 1 "https://cv.example/owner.pdf"
    none 50 jobFix rfl rfl

/-- Claim C1 (confirmed): a successful Apply preserves the
one-application-per-(job, applicant) invariant, and an immediate second
Apply by the same user to the same job always fails with the Conflict
duplicate error and returns the store unchanged.  Apply is the only
operation that inserts Applications, so the invariant holds at any time;
the storage unique index backs the same pair uniqueness against races,
which the sequential model cannot exhibit. -/
theorem apply_twice_conflict (db : DB) (A J : Nat) (r : String)
    (c : Option String) (now : Nat) (a : AppDoc) (db' : DB)
    (h : applyToJob db A J r c now = (.ok a, db'))
    (hnd : NoDupPair db.apps) :
    NoDupPair db'.apps ∧
    ∀ r' c', applyToJob db' A J r' c' now =
      (.err .conflict "You have already applied to this job", db') := by
  unfold applyToJob at h
  split at h
  · simp at h
  · rename_i job hfind
    split_ifs at h with h1 h2 h3 h4
    · simp at h
    · simp at h
    · simp at h
    · simp at h
    · simp only [Prod.mk.injEq, OpResult.ok.injEq] at h
      obtain ⟨ha, hdb⟩ := h
      subst hdb
      have hpj : (job.id == J) = true :=
        @List.find?_some JobDoc (fun x => x.id == J) job db.jobs
          (show List.find? (fun x => x.id == J) db.jobs = some job from hfind)
      have hppj : job.id = J := by simpa using hpj
      have hnone : findAppByJobApplicant db J A = none := by
        cases hopt : findAppByJobApplicant db J A with
        | none => rfl
        | some x => rw [hopt] at h3; simp at h3
      constructor
      · show NoDupPair (insertApplication db A J r c).apps
        unfold insertApplication NoDupPair
        dsimp only
        rw [List.pairwise_append]
        refine ⟨hnd, List.pairwise_singleton _ _, ?_⟩
        intro x hx y hy
        rw [List.mem_singleton] at hy
        subst hy
        have hq := List.find?_eq_none.mp
          (show List.find? (fun q => q.job == J && q.applicant == A) db.apps
            = none from hnone) x hx
        simp only [Bool.and_eq_true, beq_iff_eq, not_and] at hq
        intro hcon
        exact hq hcon.1 (by simpa [mkApplication] using hcon.2)
      · intro r' c'
        unfold applyToJob
        have hfind2 : findJob (insertApplication db A J r c) J
            = some { job with applicationsCount := job.applicationsCount + 1 } := by
          unfold insertApplication findJob
          dsimp only
          rw [find?_map_pres (fun j => j.id == J)
            (fun j => if j.id == J then
              { j with applicationsCount := j.applicationsCount + 1 } else j)
            ?_ db.jobs]
          · rw [show List.find? (fun j => j.id == J) db.jobs = some job from hfind]
            simp [hppj]
          · intro x
            by_cases hx : (x.id == J) = true
            · simp [hx]
            · simp [hx]
        rw [hfind2]
        dsimp only
        rw [if_neg (show ¬((!({ job with
              applicationsCount := job.applicationsCount + 1 } : JobDoc).isActive)
            = true) from h1)]
        rw [if_neg (show ¬((dateTruthy ({ job with
              applicationsCount := job.applicationsCount + 1 } : JobDoc).applicationDeadline &&
            decide (now > ({ job with
              applicationsCount := job.applicationsCount + 1 } : JobDoc).applicationDeadline.getD 0))
            = true) from h2)]
        have hdup : (findAppByJobApplicant (insertApplication db A J r c) J A).isSome
            = true := by
          unfold findAppByJobApplicant insertApplication
          dsimp only
          rw [List.find?_append]
          rw [show List.find? (fun q => q.job == J && q.applicant == A) db.apps
            = none from hnone]
          simp [mkApplication]
        rw [if_pos hdup]


/-- Claim C1 witness: concrete double apply by user 20 to job 1. -/
theorem apply_twice_conflict_witness :
    NoDupPair dbFix1.apps ∧
    applyToJob dbFix1 20 1 "https://cv.example/resume.pdf" none 50 =
      (.err .conflict "You have already applied to this job", dbFix1) := by
  have h := apply_twice_conflict dbFix 20 1 "https://cv.example/resume.pdf"
    none 50 appWit dbFix1 rfl List.Pairwise.nil
  exact ⟨h.1, h.2 "https://cv.example/resume.pdf" none⟩

/-- Claim C5 (confirmed): for an existing Application whose applicant is
the requester, Withdraw fails with InvalidOperation exactly when the
status is hired or rejected; for every other status it succeeds, the
Application is gone from the store, and the referenced job (when present)
has its applicationsCount decremented by exactly 1. -/
theorem withdraw_terminal_iff (db : DB) (u appId : Nat) (app : AppDoc)
    (hfind : findApp db appId = some app) (happ : app.applicant = u) :
    ((∃ m, (withdrawApplication db u appId).1 = .err .invalidOperation m) ↔
      (app.status = .hired ∨ app.status = .rejected)) ∧
    (¬(app.status = .hired ∨ app.status = .rejected) →
      (withdrawApplication db u appId).1 = .ok () ∧
      findApp (withdrawApplication db u appId).2 appId = none ∧
      ∀ job, findJob db app.job = some job →
        ∃ job', findJob (withdrawApplication db u appId).2 app.job = some job' ∧
          job'.applicationsCount = job.applicationsCount - 1) := by
  unfold withdrawApplication
  rw [hfind]
  dsimp only
  rw [if_neg (show ¬((app.applicant != u) = true) by simp [happ])]
  by_cases hterm : (app.status == Status.hired || app.status == Status.rejected) = true
  · rw [if_pos hterm]
    refine ⟨⟨fun _ => by simpa using hterm, fun _ => ⟨_, rfl⟩⟩, fun hn => ?_⟩
    exact absurd (by simpa using hterm) hn
  · rw [if_neg hterm]
    refine ⟨⟨?_, fun hcon => absurd hcon (by simpa using hterm)⟩, fun _ => ?_⟩
    · rintro ⟨m, hm⟩
      simp at hm
    · refine ⟨rfl, ?_, ?_⟩
      · unfold findApp
        dsimp only
        rw [List.find?_eq_none]
        intro x hx
        rw [List.mem_filter] at hx
        simpa using hx.2
      · intro job hjob
        have hpj : (job.id == app.job) = true :=
          @List.find?_some JobDoc (fun x => x.id == app.job) job db.jobs
            (show List.find? (fun x => x.id == app.job) db.jobs = some job from hjob)
        have hppj : job.id = app.job := by simpa using hpj
        refine ⟨{ job with applicationsCount := job.applicationsCount - 1 }, ?_, rfl⟩
        unfold findJob
        dsimp only
        rw [find?_map_pres (fun j => j.id == app.job)
          (fun j => if j.id == app.job then
            { j with applicationsCount := j.applicationsCount - 1 } else j)
          ?_ db.jobs]
        · rw [show List.find? (fun j => j.id == app.job) db.jobs = some job from hjob]
          simp [hppj]
        · intro x
          by_cases hx : (x.id == app.job) = true
          · simp [hx]
          · simp [hx]

/-- Claim C5 witness: concrete withdraw of the pending application in
dbFix2, exercising the non-terminal branch of the theorem. -/
theorem withdraw_terminal_iff_witness :
    (withdrawApplication dbFix2 20 1).1 = .ok () ∧
    findApp (withdrawApplication dbFix2 20 1).2 1 = none ∧
    (∃ job', findJob (withdrawApplication dbFix2 20 1).2 1 = some job' ∧
      job'.applicationsCount = jobFix.applicationsCount - 1) := by
  have h := withdraw_terminal_iff dbFix2 20 1 appFix rfl rfl
  have h2 := h.2 (by decide)
  exact ⟨h2.1, h2.2.1, h2.2.2 jobFix rfl⟩

/-- Claim C7 (confirmed): after a successful Delete of a job, a GetOne on
any Application that referenced that job answers NotFound: the delete
removes every such Application (the deleteMany cascade), so the lookup by
id finds nothing. -/
theorem delete_job_cascades (db : DB) (u : Nat) (role : Role) (jobId : Nat)
    (db' : DB) (hwf : DistinctAppIds db)
    (hdel : deleteJob db u role jobId = (.ok (), db'))
    (a : AppDoc) (ha : a ∈ db.apps) (haj : a.job = jobId)
    (u' : Nat) (role' : Role) :
    getApplication db' u' role' a.id = .err .notFound "Application not found" := by
  unfold deleteJob at hdel
  split at hdel
  · simp at hdel
  · split at hdel
    · simp at hdel
    · simp only [Prod.mk.injEq, true_and] at hdel
      subst hdel
      unfold getApplication
      have hnone : findApp
          { db with
            jobs := db.jobs.filter (fun j => j.id != jobId)
            apps := db.apps.filter (fun x => x.job != jobId) } a.id = none := by
        unfold findApp
        dsimp only
        rw [List.find?_eq_none]
        intro x hx
        rw [List.mem_filter] at hx
        obtain ⟨hxm, hxj⟩ := hx
        intro hbeq
        have hxe : x.id = a.id := by simpa using hbeq
        by_cases hxa : x = a
        · subst hxa
          rw [haj] at hxj
          simp at hxj
        · exact absurd hxe
            (List.Pairwise.forall (fun _ _ hne => Ne.symm hne) hwf hxm ha hxa)
      rw [hnone]

/-- Claim C7 witness: delete job 1 of dbFix2 and look up the cascaded
application. -/
theorem delete_job_cascades_witness :
    getApplication (deleteJob dbFix2 10 .recruiter 1).2 20 .jobSeeker 1 =
      .err .notFound "Application not found" :=
  delete_job_cascades dbFix2 10 .recruiter 1 (deleteJob dbFix2 10 .recruiter 1).2
    (List.pairwise_singleton _ _) rfl appFix (List.mem_singleton_self _) rfl
    20 .jobSeeker

/-- The tags clause of the update handler keeps the key of an entry. -/
theorem normalizeTagsEntry_fst (kv : String × FieldVal) :
    (normalizeTagsEntry kv).1 = kv.1 := by
  obtain ⟨k, v⟩ := kv
  unfold normalizeTagsEntry
  by_cases hk : (k == "tags") = true
  · rw [if_pos hk]
    cases v <;> rfl
  · rw [if_neg hk]

/-- One Set assignment on an allow-listed key leaves id, createdBy,
applicationsCount and viewsCount unchanged. -/
theorem applySet_allowed_frame (j : JobDoc) (k : String) (v : FieldVal)
    (hk : k ∈ allowedUpdates) :
    (applySet j k v).id = j.id ∧
    (applySet j k v).createdBy = j.createdBy ∧
    (applySet j k v).applicationsCount = j.applicationsCount ∧
    (applySet j k v).viewsCount = j.viewsCount := by
  simp only [allowedUpdates, List.mem_cons, List.not_mem_nil, or_false] at hk
  rcases hk with rfl|rfl|rfl|rfl|rfl|rfl|rfl|rfl|rfl|rfl|rfl|rfl|rfl|rfl|rfl <;>
    cases v <;> simp [applySet]

/-- The whole Set stage over allow-listed entries preserves the four
protected fields. -/
theorem applyUpdates_frame (ups : List (String × FieldVal))
    (h : ∀ kv ∈ ups, kv.1 ∈ allowedUpdates) :
    ∀ j : JobDoc, (applyUpdates j ups).id = j.id ∧
      (applyUpdates j ups).createdBy = j.createdBy ∧
      (applyUpdates j ups).applicationsCount = j.applicationsCount ∧
      (applyUpdates j ups).viewsCount = j.viewsCount := by
  induction ups with
  | nil => exact fun j => ⟨rfl, rfl, rfl, rfl⟩
  | cons kv t ih =>
    intro j
    have hk := h kv (List.mem_cons_self kv t)
    have ht : ∀ x ∈ t, x.1 ∈ allowedUpdates :=
      fun x hx => h x (List.mem_cons_of_mem kv hx)
    have h1 := applySet_allowed_frame j kv.1 kv.2 hk
    have h2 := ih ht (applySet j kv.1 kv.2)
    unfold applyUpdates at h2 ⊢
    rw [List.foldl_cons]
    exact ⟨h2.1.trans h1.1, h2.2.1.trans h1.2.1,
      h2.2.2.1.trans h1.2.2.1, h2.2.2.2.trans h1.2.2.2⟩

/-- Claim C8 (confirmed): whatever keys the update body contains, every
stored job after a Job update keeps its id, createdBy, applicationsCount
and viewsCount (the fields outside the fixed allow-list), in every branch
of the handler; the allow-list filter runs before the Set stage, so a body
entry for one of those fields never reaches the store. -/
theorem update_preserves_protected_fields (db : DB) (userId : Nat)
    (role : Role) (jobId : Nat) (body : List (String × FieldVal)) :
    List.Forall₂ (fun j' j => j'.id = j.id ∧ j'.createdBy = j.createdBy ∧
      j'.applicationsCount = j.applicationsCount ∧ j'.viewsCount = j.viewsCount)
      ((updateJob db userId role jobId body).2.jobs) db.jobs := by
  have hrefl : ∀ l : List JobDoc,
      List.Forall₂ (fun j' j => j'.id = j.id ∧ j'.createdBy = j.createdBy ∧
        j'.applicationsCount = j.applicationsCount ∧ j'.viewsCount = j.viewsCount)
        l l :=
    fun l => List.forall₂_same.mpr (fun x _ => ⟨rfl, rfl, rfl, rfl⟩)
  unfold updateJob
  split
  · exact hrefl db.jobs
  · split
    · exact hrefl db.jobs
    · dsimp only
      split
      · exact hrefl db.jobs
      · dsimp only
        apply forall₂_map_self
        intro a
        by_cases hx : (a.id == jobId) = true
        · rw [if_pos hx]
          have hmem : ∀ kv ∈ (filterAllowed body).map normalizeTagsEntry,
              kv.1 ∈ allowedUpdates := by
            intro kv hkv
            obtain ⟨kv0, hkv0, rfl⟩ := List.mem_map.mp hkv
            rw [normalizeTagsEntry_fst]
            have hc := (List.mem_filter.mp hkv0).2
            simpa using hc
          exact applyUpdates_frame ((filterAllowed body).map normalizeTagsEntry)
            hmem a
        · rw [if_neg hx]
          exact ⟨rfl, rfl, rfl, rfl⟩

end JobBoard
